import Mathlib

/-!
Shallow embedding of the OpenAPI/Swagger specification normalization layer
of the API-Visualizer repository (`src/utils/openApiParser.ts`, model types
in `src/types/api.ts`).

Modelling conventions:
* TypeScript optional fields (`x?: T`, or fields that may be absent at
  runtime) become `Option` fields; reading an absent property yields
  `none` (JavaScript `undefined`).
* `Record<string, T>` objects become insertion-ordered association lists
  `List (String × T)`; `Object.entries` iterates them in order.
* JavaScript truthiness on strings: `undefined` and `""` are falsy.
* JavaScript `a || b` on an optional boolean `a` is `a.getD false || b`.
* `unknown` values (examples, enum members) become a generic `Json` tree.
* The schema types are recursive; they are given as mutual inductives with
  explicit list types so that structural recursion is available.
* Exceptions become `Except NormError`; the JavaScript `TypeError` raised
  by reading a property of `undefined` is `NormError.typeError`.
-/

/-- A generic JSON-like value, used for `unknown`-typed payloads
(`example` values and `enum` members) that the normalizer copies verbatim. -/
inductive Json where
  | null : Json
  | bool (b : Bool) : Json
  | num (n : Int) : Json
  | str (s : String) : Json
  | arr (elems : List Json) : Json
  | obj (fields : List (String × Json)) : Json

/-- The `HttpMethod` union type of `src/types/api.ts`. -/
inductive HttpMethod where
  | get | post | put | patch | delete | options | head
deriving Repr, DecidableEq

/-- The string each `HttpMethod` denotes in the source document and in the
produced identifiers. -/
def HttpMethod.toStr : HttpMethod → String
  | .get => "get"
  | .post => "post"
  | .put => "put"
  | .patch => "patch"
  | .delete => "delete"
  | .options => "options"
  | .head => "head"

mutual
/-- Input-side `OpenAPISchema` interface of `openApiParser.ts`: every field
optional.  `ref` models the `$ref` field. -/
inductive OpenAPISchema where
  | mk (type : Option String) (format : Option String)
       (description : Option String)
       (properties : Option OpenAPIProps)
       (items : Option OpenAPISchema)
       (required : Option (List String))
       (enum : Option (List Json))
       (exampleVal : Option Json)
       (ref : Option String)
       (nullable : Option Bool)
       (oneOf : Option OpenAPISchemaList)
       (anyOf : Option OpenAPISchemaList)
       (allOf : Option OpenAPISchemaList)

/-- An ordered list of schemas (`OpenAPISchema[]`, used by oneOf/anyOf/allOf). -/
inductive OpenAPISchemaList where
  | nil
  | cons (head : OpenAPISchema) (tail : OpenAPISchemaList)

/-- An insertion-ordered `Record<string, OpenAPISchema>` (the `properties` map). -/
inductive OpenAPIProps where
  | nil
  | cons (key : String) (val : OpenAPISchema) (tail : OpenAPIProps)
end

namespace OpenAPISchema
def type : OpenAPISchema → Option String | .mk t _ _ _ _ _ _ _ _ _ _ _ _ => t
def format : OpenAPISchema → Option String | .mk _ f _ _ _ _ _ _ _ _ _ _ _ => f
def description : OpenAPISchema → Option String | .mk _ _ d _ _ _ _ _ _ _ _ _ _ => d
def properties : OpenAPISchema → Option OpenAPIProps | .mk _ _ _ p _ _ _ _ _ _ _ _ _ => p
def items : OpenAPISchema → Option OpenAPISchema | .mk _ _ _ _ i _ _ _ _ _ _ _ _ => i
def required : OpenAPISchema → Option (List String) | .mk _ _ _ _ _ r _ _ _ _ _ _ _ => r
def enum : OpenAPISchema → Option (List Json) | .mk _ _ _ _ _ _ e _ _ _ _ _ _ => e
def exampleVal : OpenAPISchema → Option Json | .mk _ _ _ _ _ _ _ e _ _ _ _ _ => e
def ref : OpenAPISchema → Option String | .mk _ _ _ _ _ _ _ _ r _ _ _ _ => r
def nullable : OpenAPISchema → Option Bool | .mk _ _ _ _ _ _ _ _ _ n _ _ _ => n
def oneOf : OpenAPISchema → Option OpenAPISchemaList | .mk _ _ _ _ _ _ _ _ _ _ o _ _ => o
def anyOf : OpenAPISchema → Option OpenAPISchemaList | .mk _ _ _ _ _ _ _ _ _ _ _ a _ => a
def allOf : OpenAPISchema → Option OpenAPISchemaList | .mk _ _ _ _ _ _ _ _ _ _ _ _ a => a
end OpenAPISchema

mutual
/-- Output-side `SchemaRef` interface of `src/types/api.ts`: the recursive
unnamed type descriptor.  `ref` models the `$ref` field. -/
inductive SchemaRef where
  | mk (type : Option String) (ref : Option String)
       (format : Option String) (description : Option String)
       (enum : Option (List Json))
       (items : Option SchemaRef)
       (properties : Option SchemaRefProps)
       (required : Option (List String))
       (exampleVal : Option Json)
       (nullable : Option Bool)
       (oneOf : Option SchemaRefList)
       (anyOf : Option SchemaRefList)
       (allOf : Option SchemaRefList)

/-- An ordered list of `SchemaRef` (oneOf/anyOf/allOf results). -/
inductive SchemaRefList where
  | nil
  | cons (head : SchemaRef) (tail : SchemaRefList)

/-- An insertion-ordered `Record<string, SchemaRef>` (converted `properties`). -/
inductive SchemaRefProps where
  | nil
  | cons (key : String) (val : SchemaRef) (tail : SchemaRefProps)
end

namespace SchemaRef
def type : SchemaRef → Option String | .mk t _ _ _ _ _ _ _ _ _ _ _ _ => t
def ref : SchemaRef → Option String | .mk _ r _ _ _ _ _ _ _ _ _ _ _ => r
def format : SchemaRef → Option String | .mk _ _ f _ _ _ _ _ _ _ _ _ _ => f
def description : SchemaRef → Option String | .mk _ _ _ d _ _ _ _ _ _ _ _ _ => d
def enum : SchemaRef → Option (List Json) | .mk _ _ _ _ e _ _ _ _ _ _ _ _ => e
def items : SchemaRef → Option SchemaRef | .mk _ _ _ _ _ i _ _ _ _ _ _ _ => i
def properties : SchemaRef → Option SchemaRefProps | .mk _ _ _ _ _ _ p _ _ _ _ _ _ => p
def required : SchemaRef → Option (List String) | .mk _ _ _ _ _ _ _ r _ _ _ _ _ => r
def exampleVal : SchemaRef → Option Json | .mk _ _ _ _ _ _ _ _ e _ _ _ _ => e
def nullable : SchemaRef → Option Bool | .mk _ _ _ _ _ _ _ _ _ n _ _ _ => n
def oneOf : SchemaRef → Option SchemaRefList | .mk _ _ _ _ _ _ _ _ _ _ o _ _ => o
def anyOf : SchemaRef → Option SchemaRefList | .mk _ _ _ _ _ _ _ _ _ _ _ a _ => a
def allOf : SchemaRef → Option SchemaRefList | .mk _ _ _ _ _ _ _ _ _ _ _ _ a => a
end SchemaRef

mutual
/-- `parseSchemaRef` of `openApiParser.ts` on a present schema node: copy the
scalar fields verbatim and recursively convert `items`, `properties`, and the
`oneOf`/`anyOf`/`allOf` member lists. -/
def parseSchemaRefSome : OpenAPISchema → SchemaRef
  | .mk ty fmt desc props items req en ex ref nul o1 a1 al =>
    .mk ty ref fmt desc en
      (parseSchemaRefOptItems items)
      (parseSchemaRefOptProps props)
      req ex nul
      (parseSchemaRefOptList o1) (parseSchemaRefOptList a1)
      (parseSchemaRefOptList al)

/-- `schema.items ? parseSchemaRef(schema.items) : undefined`. -/
def parseSchemaRefOptItems : Option OpenAPISchema → Option SchemaRef
  | none => none
  | some s => some (parseSchemaRefSome s)

/-- `schema.properties ? Object.fromEntries(...map parseSchemaRef) : undefined`. -/
def parseSchemaRefOptProps : Option OpenAPIProps → Option SchemaRefProps
  | none => none
  | some ps => some (parseSchemaRefProps ps)

/-- Convert every value of a `properties` record, preserving keys and order. -/
def parseSchemaRefProps : OpenAPIProps → SchemaRefProps
  | .nil => .nil
  | .cons k v rest => .cons k (parseSchemaRefSome v) (parseSchemaRefProps rest)

/-- `schema.oneOf?.map(parseSchemaRef)` (same for anyOf/allOf). -/
def parseSchemaRefOptList : Option OpenAPISchemaList → Option SchemaRefList
  | none => none
  | some l => some (parseSchemaRefList l)

/-- Convert every member of a schema list, preserving order. -/
def parseSchemaRefList : OpenAPISchemaList → SchemaRefList
  | .nil => .nil
  | .cons s rest => .cons (parseSchemaRefSome s) (parseSchemaRefList rest)
end

/-- `parseSchemaRef` of `openApiParser.ts`: an absent schema node becomes
`{ type: 'object' }`; a present one is converted recursively. -/
def parseSchemaRef : Option OpenAPISchema → SchemaRef
  | none => .mk (some "object") none none none none none none none none none none none none
  | some s => parseSchemaRefSome s

/-- Input-side `OpenAPIParameter` interface.  `in_loc` models the `in`
field (a location string: path/query/header/cookie). -/
structure OpenAPIParameter where
  name : Option String
  in_loc : Option String
  description : Option String
  required : Option Bool
  schema : Option OpenAPISchema
  exampleVal : Option Json

/-- A media-type entry (`{ schema?, example? }`) of a request body or
response `content` record. -/
structure MediaIn where
  schema : Option OpenAPISchema
  exampleVal : Option Json

/-- The inline request-body shape of the input `Operation` interface. -/
structure RequestBodyIn where
  description : Option String
  required : Option Bool
  content : Option (List (String × MediaIn))

/-- The inline response shape of the input `Operation` interface. -/
structure ResponseIn where
  description : Option String
  content : Option (List (String × MediaIn))

/-- Input-side `Operation` interface.  A `security` entry is a single-key
record mapping a scheme name to a scope list, modelled as an ordered
association list. -/
structure Operation where
  summary : Option String
  description : Option String
  operationId : Option String
  tags : Option (List String)
  parameters : Option (List OpenAPIParameter)
  requestBody : Option RequestBodyIn
  responses : Option (List (String × ResponseIn))
  security : Option (List (List (String × List String)))
  deprecated : Option Bool

/-- Input-side `PathItem` interface: one optional operation per method of the
fixed enumeration, plus a path-level shared parameter list. -/
structure PathItem where
  get : Option Operation
  post : Option Operation
  put : Option Operation
  patch : Option Operation
  delete : Option Operation
  options : Option Operation
  head : Option Operation
  parameters : Option (List OpenAPIParameter)

/-- `pathItem[method]`: the operation stored under a method key. -/
def PathItem.getOp (pi : PathItem) : HttpMethod → Option Operation
  | .get => pi.get
  | .post => pi.post
  | .put => pi.put
  | .patch => pi.patch
  | .delete => pi.delete
  | .options => pi.options
  | .head => pi.head

/-- The `info` block of the input document (all reads are plain property
accesses, so each field may be absent at runtime). -/
structure InfoIn where
  title : Option String
  version : Option String
  description : Option String

/-- The `Server` record (shared by input and output: the normalizer copies
the `servers` list verbatim). -/
structure Server where
  url : Option String
  description : Option String

/-- The `Tag` record (shared by input and output: declared tags are copied
verbatim; synthesized tags carry only a name). -/
structure Tag where
  name : String
  description : Option String

/-- Input-side `OpenAPISecurityScheme` interface; `in_loc` models `in`. -/
structure OpenAPISecuritySchemeIn where
  type : Option String
  in_loc : Option String
  name : Option String
  scheme : Option String
  bearerFormat : Option String
  description : Option String

/-- The input document's `components` block. -/
structure ComponentsIn where
  schemas : Option (List (String × OpenAPISchema))
  securitySchemes : Option (List (String × OpenAPISecuritySchemeIn))

/-- Input-side `OpenAPISpec` interface: the parsed document tree as the
normalizer probes it.  The TypeScript interface marks `info` and `paths`
required, but the normalizer only ever guards `paths` (`spec.paths || {}`),
so both are modelled as runtime-optional. -/
structure OpenAPISpec where
  openapi : Option String
  swagger : Option String
  info : Option InfoIn
  servers : Option (List Server)
  paths : Option (List (String × PathItem))
  components : Option ComponentsIn
  tags : Option (List Tag)

/-- Output-side `Parameter` record of `src/types/api.ts`. -/
structure Parameter where
  name : Option String
  in_loc : Option String
  description : Option String
  required : Bool
  schema : SchemaRef
  exampleVal : Option Json

/-- Output-side `MediaType` record (`{ schema, example? }`). -/
structure MediaTypeOut where
  schema : SchemaRef
  exampleVal : Option Json

/-- Output-side `RequestBody` record. -/
structure RequestBody where
  description : Option String
  required : Bool
  content : List (String × MediaTypeOut)

/-- Output-side `Response` record. -/
structure Response where
  statusCode : String
  description : Option String
  content : Option (List (String × MediaTypeOut))

/-- Output-side `Endpoint` record. -/
structure Endpoint where
  id : String
  path : String
  method : HttpMethod
  summary : Option String
  description : Option String
  tags : List String
  parameters : List Parameter
  requestBody : Option RequestBody
  responses : List Response
  security : Option (List (Option String))
  deprecated : Option Bool

/-- Output-side named `Schema` record. -/
structure Schema where
  name : String
  type : String
  description : Option String
  properties : Option SchemaRefProps
  items : Option SchemaRef
  required : Option (List String)
  enum : Option (List Json)
  format : Option String
  exampleVal : Option Json

/-- Output-side `SecurityScheme` record. -/
structure SecurityScheme where
  name : String
  type : Option String
  in_loc : Option String
  scheme : Option String
  bearerFormat : Option String
  description : Option String

/-- Output-side `ApiSpec` record: the unified model. -/
structure ApiSpec where
  title : Option String
  version : Option String
  description : Option String
  servers : Option (List Server)
  endpoints : List Endpoint
  schemas : List Schema
  tags : List Tag
  securitySchemes : List SecurityScheme

/-- The error kinds the load pipeline can raise.  `parseError` is the
"Failed to parse spec: Invalid JSON or YAML" throw, `validationError` the
"Invalid OpenAPI specification: missing openapi or swagger version" throw,
and `typeError` the JavaScript `TypeError` raised by reading a property of
`undefined` (e.g. `spec.info.title` when the document has no `info`). -/
inductive NormError where
  | parseError
  | validationError
  | typeError
deriving Repr, DecidableEq

/-- JavaScript truthiness of an optional string value: `undefined` and the
empty string are falsy. -/
def truthyStr : Option String → Bool
  | none => false
  | some s => s != ""

/-- JavaScript `s || d` for an optional string `s` and default `d`
(the empty string falls through to the default). -/
def strOrDefault (o : Option String) (d : String) : String :=
  match o with
  | none => d
  | some s => if s = "" then d else s

/-- `parseParameter` of `openApiParser.ts`:
`required: param.required || param.in === 'path'`. -/
def parseParameter (param : OpenAPIParameter) : Parameter :=
  { name := param.name
    in_loc := param.in_loc
    description := param.description
    required := param.required.getD false || (param.in_loc == some "path")
    schema := parseSchemaRef param.schema
    exampleVal := param.exampleVal }

/-- `parseRequestBody` of `openApiParser.ts`. -/
def parseRequestBody (body : Option RequestBodyIn) : Option RequestBody :=
  match body with
  | none => none
  | some b =>
    some { description := b.description
           required := b.required.getD false
           content := (b.content.getD []).map fun mc =>
             (mc.1, { schema := parseSchemaRef mc.2.schema
                      exampleVal := mc.2.exampleVal }) }

/-- `parseResponses` of `openApiParser.ts`: one `Response` per declared
status code, in order; an empty converted content record becomes absent. -/
def parseResponses (responses : Option (List (String × ResponseIn))) : List Response :=
  match responses with
  | none => []
  | some rs => rs.map fun r =>
    let content := (r.2.content.getD []).map fun mc =>
      (mc.1, ({ schema := parseSchemaRef mc.2.schema
                exampleVal := mc.2.exampleVal } : MediaTypeOut))
    { statusCode := r.1
      description := r.2.description
      content := if content.length > 0 then some content else none }

/-- `parseSchema` of `openApiParser.ts`: convert one named component schema,
defaulting an absent (or falsy) `type` to `"object"`. -/
def parseSchema (name : String) (schema : OpenAPISchema) : Schema :=
  { name := name
    type := strOrDefault schema.type "object"
    description := schema.description
    properties := parseSchemaRefOptProps schema.properties
    items := parseSchemaRefOptItems schema.items
    required := schema.required
    enum := schema.enum
    format := schema.format
    exampleVal := schema.exampleVal }

/-- The fixed method enumeration iterated for every path entry. -/
def methods : List HttpMethod :=
  [.get, .post, .put, .patch, .delete, .options, .head]

/-- The `endpoints.push({...})` body of `parseOpenApiSpec`: build one
`Endpoint` for a present operation. -/
def mkEndpoint (path : String) (method : HttpMethod)
    (pathParams : List OpenAPIParameter) (op : Operation) : Endpoint :=
  { id := method.toStr ++ "-" ++ path
    path := path
    method := method
    summary := op.summary
    description := op.description
    tags := op.tags.getD ["default"]
    parameters := (pathParams ++ op.parameters.getD []).map parseParameter
    requestBody := parseRequestBody op.requestBody
    responses := parseResponses op.responses
    security := op.security.map fun l => l.map fun s => (s.map Prod.fst).head?
    deprecated := op.deprecated }

/-- The inner method loop: for one path entry, one endpoint per present
operation, in the order of the fixed method enumeration. -/
def endpointsOfPath (path : String) (item : PathItem) : List Endpoint :=
  methods.filterMap fun m =>
    (item.getOp m).map (mkEndpoint path m (item.parameters.getD []))

/-- The endpoint-extraction loop over `Object.entries(spec.paths || {})`. -/
def parseEndpoints (paths : List (String × PathItem)) : List Endpoint :=
  paths.flatMap fun pr => endpointsOfPath pr.1 pr.2

/-- `extractTags` of `openApiParser.ts`: the distinct tag names referenced by
the endpoints, in first-seen order (a `Set` preserves insertion order). -/
def extractTags (endpoints : List Endpoint) : List Tag :=
  (endpoints.foldl
      (fun acc e => e.tags.foldl
        (fun acc2 t => if t ∈ acc2 then acc2 else acc2 ++ [t]) acc) []).map
    fun name => { name := name, description := none }

/-- `spec.components?.schemas || {}`. -/
def componentSchemas (spec : OpenAPISpec) : List (String × OpenAPISchema) :=
  match spec.components with
  | none => []
  | some c => c.schemas.getD []

/-- `spec.components?.securitySchemes || {}`. -/
def componentSecuritySchemes (spec : OpenAPISpec) :
    List (String × OpenAPISecuritySchemeIn) :=
  match spec.components with
  | none => []
  | some c => c.securitySchemes.getD []

/-- The normalization phase of `parseOpenApiSpec` (everything after the
serialization parse): dialect gate, endpoint/schema/security extraction and
final assembly.  Reading `spec.info.title` when `info` is absent raises a
JavaScript `TypeError`, modelled as `NormError.typeError`. -/
def normalizeSpec (spec : OpenAPISpec) : Except NormError ApiSpec :=
  if truthyStr spec.openapi || truthyStr spec.swagger then
    let endpoints := parseEndpoints (spec.paths.getD [])
    let schemas := (componentSchemas spec).map fun ns => parseSchema ns.1 ns.2
    let securitySchemes := (componentSecuritySchemes spec).map fun ns =>
      ({ name := ns.1
         type := ns.2.type
         in_loc := ns.2.in_loc
         scheme := ns.2.scheme
         bearerFormat := ns.2.bearerFormat
         description := ns.2.description } : SecurityScheme)
    match spec.info with
    | none => .error .typeError
    | some info =>
      .ok { title := info.title
            version := info.version
            description := info.description
            servers := spec.servers
            endpoints := endpoints
            schemas := schemas
            tags := match spec.tags with
                    | some ts => ts
                    | none => extractTags endpoints
            securitySchemes := securitySchemes }
  else
    .error .validationError

/-- The input of the public entry point: raw text or an already-parsed
document object. -/
inductive ParseInput where
  | text (s : String)
  | obj (doc : OpenAPISpec)

/-- `parseOpenApiSpec` of `openApiParser.ts`.  The two serialization parsers
(`JSON.parse` and `js-yaml`'s `load`) are external platform libraries, not
code of this repository; they are passed as pure functions returning `none`
on a parse failure.  String input tries strict JSON first, then YAML, and
raises `parseError` when both fail; object input skips parsing entirely. -/
def parseOpenApiSpec (jsonParse yamlParse : String → Option OpenAPISpec) :
    ParseInput → Except NormError ApiSpec
  | .text s =>
    match jsonParse s with
    | some doc => normalizeSpec doc
    | none =>
      match yamlParse s with
      | some doc => normalizeSpec doc
      | none => .error .parseError
  | .obj doc => normalizeSpec doc

mutual
/-- Nesting depth of an input schema node: one more than the deepest child
reachable through `items`, `properties`, or a composition list.  `$ref`
strings are scalar data and contribute no depth. -/
def schemaDepth : OpenAPISchema → Nat
  | .mk _ _ _ props items _ _ _ _ _ o1 a1 al =>
    1 + (schemaDepthOptItems items).max
      ((schemaDepthOptProps props).max
        ((schemaDepthOptList o1).max
          ((schemaDepthOptList a1).max (schemaDepthOptList al))))

/-- Depth of an optional child node (absent children contribute 0). -/
def schemaDepthOptItems : Option OpenAPISchema → Nat
  | none => 0
  | some s => schemaDepth s

/-- Depth of an optional `properties` record. -/
def schemaDepthOptProps : Option OpenAPIProps → Nat
  | none => 0
  | some ps => schemaDepthProps ps

/-- Depth of a `properties` record: maximum over its values. -/
def schemaDepthProps : OpenAPIProps → Nat
  | .nil => 0
  | .cons _ v rest => (schemaDepth v).max (schemaDepthProps rest)

/-- Depth of an optional composition list. -/
def schemaDepthOptList : Option OpenAPISchemaList → Nat
  | none => 0
  | some l => schemaDepthList l

/-- Depth of a composition list: maximum over its members. -/
def schemaDepthList : OpenAPISchemaList → Nat
  | .nil => 0
  | .cons s rest => (schemaDepth s).max (schemaDepthList rest)
end

mutual
/-- Nesting depth of a produced `SchemaRef`, measured exactly like
`schemaDepth` on the input side. -/
def schemaRefDepth : SchemaRef → Nat
  | .mk _ _ _ _ _ items props _ _ _ o1 a1 al =>
    1 + (schemaRefDepthOptItems items).max
      ((schemaRefDepthOptProps props).max
        ((schemaRefDepthOptList o1).max
          ((schemaRefDepthOptList a1).max (schemaRefDepthOptList al))))

/-- Depth of an optional converted child node. -/
def schemaRefDepthOptItems : Option SchemaRef → Nat
  | none => 0
  | some s => schemaRefDepth s

/-- Depth of an optional converted `properties` record. -/
def schemaRefDepthOptProps : Option SchemaRefProps → Nat
  | none => 0
  | some ps => schemaRefDepthProps ps

/-- Depth of a converted `properties` record. -/
def schemaRefDepthProps : SchemaRefProps → Nat
  | .nil => 0
  | .cons _ v rest => (schemaRefDepth v).max (schemaRefDepthProps rest)

/-- Depth of an optional converted composition list. -/
def schemaRefDepthOptList : Option SchemaRefList → Nat
  | none => 0
  | some l => schemaRefDepthList l

/-- Depth of a converted composition list. -/
def schemaRefDepthList : SchemaRefList → Nat
  | .nil => 0
  | .cons s rest => (schemaRefDepth s).max (schemaRefDepthList rest)
end

/-- The number of path-template/method pairs of the document that bear an
operation object, with methods drawn from the fixed enumeration. -/
def countOperations (paths : List (String × PathItem)) : Nat :=
  (paths.map fun pr =>
    (methods.filter fun m => (pr.2.getOp m).isSome).length).sum

/-- An input schema node with every field absent. -/
def emptyOpenAPISchema : OpenAPISchema :=
  .mk none none none none none none none none none none none none none

/-- An input schema node carrying only a `$ref` string. -/
def refOnlyNode : OpenAPISchema :=
  .mk none none none none none none none none
    (some "#/components/schemas/Pet") none none none none

/-- An input schema node carrying a `$ref` string and a sibling `type`. -/
def refSiblingNode : OpenAPISchema :=
  .mk (some "string") none none none none none none none
    (some "#/components/schemas/Pet") none none none none

/-- An operation declaring nothing at all. -/
def exOpBare : Operation :=
  { summary := none, description := none, operationId := none, tags := none,
    parameters := none, requestBody := none, responses := none,
    security := none, deprecated := none }

/-- An operation declaring an explicitly empty tag list. -/
def exOpEmptyTags : Operation :=
  { exOpBare with tags := some [] }

/-- An operation tagged `"pets"`. -/
def exOpPets : Operation :=
  { exOpBare with tags := some ["pets"] }

/-- A path item whose only operation sits under `get`. -/
def exItemGet (op : Operation) : PathItem :=
  { get := some op, post := none, put := none, patch := none, delete := none,
    options := none, head := none, parameters := none }

/-- A path item with operations under `get` and `post`. -/
def exItemGetPost (op : Operation) : PathItem :=
  { exItemGet op with post := some op }

/-- A minimal well-formed info block. -/
def exInfo : InfoIn :=
  { title := some "T", version := some "1", description := none }

/-- A minimal OpenAPI 3 document with no paths. -/
def exDocOk : OpenAPISpec :=
  { openapi := some "3.0.0", swagger := none, info := some exInfo,
    servers := none, paths := none, components := none, tags := none }

/-- A document with an `openapi` root key but no `info` block. -/
def exDocNoInfo : OpenAPISpec :=
  { exDocOk with info := none }

/-- A document with neither an `openapi` nor a `swagger` root key. -/
def exDocNoDialect : OpenAPISpec :=
  { exDocOk with openapi := none }

/-- A document declaring an explicitly empty top-level tag list while one of
its operations is tagged `"pets"`. -/
def exDocEmptyTagList : OpenAPISpec :=
  { exDocOk with paths := some [("/pets", exItemGet exOpPets)],
                 tags := some [] }

/-- A document declaring a non-empty top-level tag list. -/
def exDocDeclaredTags : OpenAPISpec :=
  { exDocOk with paths := some [("/pets", exItemGet exOpPets)],
                 tags := some [{ name := "declared", description := none }] }

/-- A document whose only operation declares an empty tag list. -/
def exDocOpEmptyTags : OpenAPISpec :=
  { exDocOk with paths := some [("/pets", exItemGet exOpEmptyTags)] }

/-- A document whose only operation declares no tags at all. -/
def exDocOpBare : OpenAPISpec :=
  { exDocOk with paths := some [("/pets", exItemGet exOpBare)] }

/-- A two-path document bearing three operations in total. -/
def exDocThreeOps : OpenAPISpec :=
  { exDocOk with paths := some [("/a", exItemGetPost exOpBare),
                                ("/b", exItemGet exOpBare)] }

/-- The endpoint list extracted from `exDocOpBare`. -/
def exEndpointsOpBare : List Endpoint :=
  parseEndpoints [("/pets", exItemGet exOpBare)]

/-- The model produced for `exDocOpBare`. -/
def exApiOpBare : ApiSpec :=
  { title := some "T", version := some "1", description := none,
    servers := none, endpoints := exEndpointsOpBare, schemas := [],
    tags := extractTags exEndpointsOpBare, securitySchemes := [] }

/-- The endpoint list extracted from `exDocThreeOps`. -/
def exEndpointsThreeOps : List Endpoint :=
  parseEndpoints [("/a", exItemGetPost exOpBare), ("/b", exItemGet exOpBare)]

/-- The model produced for `exDocThreeOps`. -/
def exApiThreeOps : ApiSpec :=
  { title := some "T", version := some "1", description := none,
    servers := none, endpoints := exEndpointsThreeOps, schemas := [],
    tags := extractTags exEndpointsThreeOps, securitySchemes := [] }

/-- The endpoint list extracted from `exDocDeclaredTags`. -/
def exEndpointsPets : List Endpoint :=
  parseEndpoints [("/pets", exItemGet exOpPets)]

/-- The model produced for `exDocDeclaredTags`. -/
def exApiDeclaredTags : ApiSpec :=
  { title := some "T", version := some "1", description := none,
    servers := none, endpoints := exEndpointsPets, schemas := [],
    tags := [{ name := "declared", description := none }],
    securitySchemes := [] }

/-- A source path parameter explicitly marked `required: false`. -/
def exParamPathFalse : OpenAPIParameter :=
  { name := some "id", in_loc := some "path", description := none,
    required := some false, schema := none, exampleVal := none }

/-- A source query parameter with no `required` field. -/
def exParamQuery : OpenAPIParameter :=
  { name := some "q", in_loc := some "query", description := none,
    required := none, schema := none, exampleVal := none }

/-! Helper lemmas shared by several claims. -/

/-- Unfold the data of an appended string. -/
theorem data_append (s t : String) : (s ++ t).data = s.data ++ t.data := by
  cases s; cases t; rfl

/-- Two strings with the same character data are equal. -/
theorem strData_ext {p q : String} (h : p.data = q.data) : p = q := by
  cases p; cases q; exact congrArg String.mk h

/-- The endpoint identifier `"<method>-<path>"` determines both the method
and the path: no method name contains a dash, so the first dash delimits the
method part. -/
theorem endpointId_inj (m1 m2 : HttpMethod) (p1 p2 : String)
    (h : m1.toStr ++ "-" ++ p1 = m2.toStr ++ "-" ++ p2) :
    m1 = m2 ∧ p1 = p2 := by
  have hd := congrArg String.data h
  rw [data_append, data_append, data_append, data_append] at hd
  cases m1 <;> cases m2 <;>
    simp only [HttpMethod.toStr, String.data, List.cons_append,
      List.nil_append, List.cons.injEq, eq_self_iff_true, true_and] at hd <;>
    first
      | exact ⟨rfl, strData_ext hd⟩
      | exact absurd hd.1 (by decide)

/-- The methods of the endpoints produced for one path item are the present
methods, in enumeration order. -/
theorem filterMapOps_map_method (p : String) (item : PathItem)
    (pp : List OpenAPIParameter) (ms : List HttpMethod) :
    ((ms.filterMap fun m => (item.getOp m).map (mkEndpoint p m pp)).map
        Endpoint.method) =
      ms.filter fun m => (item.getOp m).isSome := by
  induction ms with
  | nil => rfl
  | cons m ms ih =>
    cases hop : item.getOp m <;>
      simp [List.filterMap_cons, hop, ih, mkEndpoint, List.filter_cons]

/-- The identifiers of the endpoints produced for one path item are
`"<method>-<path>"` for each present method, in enumeration order. -/
theorem filterMapOps_map_id (p : String) (item : PathItem)
    (pp : List OpenAPIParameter) (ms : List HttpMethod) :
    ((ms.filterMap fun m => (item.getOp m).map (mkEndpoint p m pp)).map
        Endpoint.id) =
      (ms.filter fun m => (item.getOp m).isSome).map
        fun (m : HttpMethod) => m.toStr ++ "-" ++ p := by
  induction ms with
  | nil => rfl
  | cons m ms ih =>
    cases hop : item.getOp m <;>
      simp [List.filterMap_cons, hop, ih, mkEndpoint, List.filter_cons]

/-- Specialization of `filterMapOps_map_id` to the fixed enumeration. -/
theorem endpointsOfPath_map_id (p : String) (item : PathItem) :
    ((endpointsOfPath p item).map Endpoint.id) =
      (methods.filter fun m => (item.getOp m).isSome).map
        fun (m : HttpMethod) => m.toStr ++ "-" ++ p :=
  filterMapOps_map_id p item _ methods

/-- Within one path entry, the produced endpoint identifiers are distinct. -/
theorem endpointsOfPath_ids_nodup (p : String) (item : PathItem) :
    ((endpointsOfPath p item).map Endpoint.id).Nodup := by
  rw [endpointsOfPath_map_id]
  apply List.Nodup.map
  · intro a b hab
    exact (endpointId_inj a b p p hab).1
  · exact (by decide : methods.Nodup).filter _

/-- Every identifier produced for a path entry has the shape
`"<method>-<path>"` with that entry's path. -/
theorem mem_endpointsOfPath_ids {x : String} {p : String} {item : PathItem}
    (h : x ∈ (endpointsOfPath p item).map Endpoint.id) :
    ∃ m : HttpMethod, x = m.toStr ++ "-" ++ p := by
  rw [endpointsOfPath_map_id] at h
  obtain ⟨m, _, rfl⟩ := List.mem_map.mp h
  exact ⟨m, rfl⟩

/-- When the path templates are distinct (as object keys are), all produced
endpoint identifiers are distinct. -/
theorem parseEndpoints_ids_nodup (paths : List (String × PathItem))
    (h : (paths.map Prod.fst).Nodup) :
    ((parseEndpoints paths).map Endpoint.id).Nodup := by
  unfold parseEndpoints
  rw [List.map_flatMap, List.nodup_flatMap]
  refine ⟨fun pr _ => endpointsOfPath_ids_nodup pr.1 pr.2, ?_⟩
  have hp : paths.Pairwise fun a b => a.1 ≠ b.1 := List.pairwise_map.mp h
  refine hp.imp ?_
  intro a b hne x hxa hxb
  obtain ⟨m1, rfl⟩ := mem_endpointsOfPath_ids hxa
  obtain ⟨m2, heq⟩ := mem_endpointsOfPath_ids hxb
  exact hne (endpointId_inj m1 m2 a.1 b.1 heq).2

/-- One path entry yields exactly one endpoint per present method. -/
theorem endpointsOfPath_length (p : String) (item : PathItem) :
    (endpointsOfPath p item).length =
      (methods.filter fun m => (item.getOp m).isSome).length := by
  rw [← List.length_map (endpointsOfPath p item) Endpoint.id,
    endpointsOfPath_map_id, List.length_map]

/-- The extraction yields exactly one endpoint per path/method pair bearing
an operation. -/
theorem parseEndpoints_length (paths : List (String × PathItem)) :
    (parseEndpoints paths).length = countOperations paths := by
  unfold parseEndpoints countOperations
  rw [List.length_flatMap]
  congr 1
  exact List.map_congr_left fun pr _ => endpointsOfPath_length pr.1 pr.2

/-- On a successful normalization, the model's endpoint list is the extraction
of the document's path record, and its tag list is the declared list when
present, else the synthesized one. -/
theorem normalizeSpec_ok_shape (spec : OpenAPISpec) (a : ApiSpec)
    (h : normalizeSpec spec = .ok a) :
    a.endpoints = parseEndpoints (spec.paths.getD []) ∧
    a.tags = (match spec.tags with
              | some ts => ts
              | none => extractTags (parseEndpoints (spec.paths.getD []))) := by
  unfold normalizeSpec at h
  split at h
  · split at h
    · cases h
    · injection h with h
      subst h
      exact ⟨rfl, rfl⟩
  · cases h

/-- The normalization phase never raises the parse-phase error. -/
theorem normalizeSpec_ne_parseError (spec : OpenAPISpec) :
    normalizeSpec spec ≠ .error NormError.parseError := by
  unfold normalizeSpec
  split
  · split <;> simp
  · simp

/-- Every endpoint produced for a path entry comes from a present operation
of that entry. -/
theorem mem_endpointsOfPath {e : Endpoint} {p : String} {item : PathItem}
    (h : e ∈ endpointsOfPath p item) :
    ∃ m op, item.getOp m = some op ∧
      e = mkEndpoint p m (item.parameters.getD []) op := by
  unfold endpointsOfPath at h
  obtain ⟨m, -, hm⟩ := List.mem_filterMap.mp h
  cases hop : item.getOp m with
  | none => rw [hop] at hm; cases hm
  | some op =>
    rw [hop] at hm
    injection hm with hm
    exact ⟨m, op, hop, hm.symm⟩

/-! Claim theorems. -/

/-- C1, counterexample: a schema node carrying a sibling `type` alongside its
`$ref` converts to a SchemaRef whose `type` IS populated — the conversion
copies sibling fields instead of suppressing them, refuting the claim that a
`$ref`-bearing node never has `type`/`properties`/`items` populated
regardless of what else the source node carries. -/
theorem parseSchemaRef_ref_sibling_populated :
    refSiblingNode.ref = some "#/components/schemas/Pet" ∧
    (parseSchemaRefSome refSiblingNode).ref = some "#/components/schemas/Pet" ∧
    (parseSchemaRefSome refSiblingNode).type = some "string" :=
  ⟨rfl, rfl, rfl⟩

/-- C1, amended: for every schema node containing a `$ref`, the produced
SchemaRef's `$ref` equals the source string verbatim and its `type` equals the
source's `type`; `properties` and `items` are unpopulated whenever the source
node carries none alongside the `$ref` (so a pure-reference node converts to a
pure reference), but sibling fields present in the source are copied, not
suppressed. -/
theorem parseSchemaRef_ref_verbatim (s : OpenAPISchema) (r : String)
    (h : s.ref = some r) :
    (parseSchemaRefSome s).ref = some r ∧
    (parseSchemaRefSome s).type = s.type ∧
    (s.properties = none → (parseSchemaRefSome s).properties = none) ∧
    (s.items = none → (parseSchemaRefSome s).items = none) := by
  cases s with
  | mk ty fmt d props items req en ex ref nul o1 a1 al =>
    refine ⟨h, rfl, fun hp => ?_, fun hi => ?_⟩
    · rw [show props = none from hp]
      exact rfl
    · rw [show items = none from hi]
      exact rfl

/-- C1, witness: on a node carrying only a `$ref`, the conversion yields a
pure reference. -/
theorem parseSchemaRef_ref_verbatim_witness :
    (parseSchemaRefSome refOnlyNode).ref = some "#/components/schemas/Pet" ∧
    (parseSchemaRefSome refOnlyNode).type = refOnlyNode.type ∧
    (parseSchemaRefSome refOnlyNode).properties = none ∧
    (parseSchemaRefSome refOnlyNode).items = none :=
  ⟨(parseSchemaRef_ref_verbatim refOnlyNode _ rfl).1,
   (parseSchemaRef_ref_verbatim refOnlyNode _ rfl).2.1,
   (parseSchemaRef_ref_verbatim refOnlyNode _ rfl).2.2.1 rfl,
   (parseSchemaRef_ref_verbatim refOnlyNode _ rfl).2.2.2 rfl⟩

/-- C2: a source parameter in location `path` normalizes to `required = true`
regardless of its explicit `required` value; in any other location the
output `required` is the source value, defaulting to `false` when absent. -/
theorem parseParameter_path_required (p : OpenAPIParameter) :
    (p.in_loc = some "path" → (parseParameter p).required = true) ∧
    (p.in_loc ≠ some "path" →
      (parseParameter p).required = p.required.getD false) := by
  constructor
  · intro h; simp [parseParameter, h]
  · intro h; simp [parseParameter, h]

/-- C2, witness: a path parameter explicitly marked `required: false`
normalizes to `required: true`, and a query parameter without a `required`
field normalizes to `false`. -/
theorem parseParameter_path_required_witness :
    (parseParameter exParamPathFalse).required = true ∧
    (parseParameter exParamQuery).required = exParamQuery.required.getD false :=
  ⟨(parseParameter_path_required exParamPathFalse).1 rfl,
   (parseParameter_path_required exParamQuery).2 (by decide)⟩

/-- C3, counterexample: a document declaring an explicitly empty top-level
tag list keeps that empty list (an empty array is truthy in JavaScript, so
`spec.tags || extractTags(endpoints)` does not fall back), while the claim
demands that tags then be synthesized from the endpoints — which here would
be `[{name: "pets"}]`. -/
theorem normalizeSpec_declared_empty_tags_kept :
    exDocEmptyTagList.tags = some [] ∧
    (normalizeSpec exDocEmptyTagList).toOption.map ApiSpec.tags = some [] ∧
    (normalizeSpec exDocEmptyTagList).toOption.map
        (fun a => extractTags a.endpoints) =
      some [{ name := "pets", description := none }] ∧
    ([] : List Tag) ≠ [{ name := "pets", description := none }] :=
  ⟨rfl, rfl, rfl, by simp⟩

/-- C3, amended: the produced ApiSpec's tags list equals the document's
declared top-level tag list whenever that list is present — even when it is
empty — and is synthesized from the endpoints' distinct tag names in
first-seen order only when the field is absent. -/
theorem normalizeSpec_tags_declared_verbatim (spec : OpenAPISpec) (a : ApiSpec)
    (h : normalizeSpec spec = .ok a) :
    (∀ ts, spec.tags = some ts → a.tags = ts) ∧
    (spec.tags = none → a.tags = extractTags a.endpoints) := by
  obtain ⟨hend, htags⟩ := normalizeSpec_ok_shape spec a h
  constructor
  · intro ts hts; rw [htags, hts]
  · intro hts; rw [htags, hts, hend]

/-- C3, witness: a declared tag list is copied verbatim, and an absent one is
synthesized from the endpoints. -/
theorem normalizeSpec_tags_declared_verbatim_witness :
    exApiDeclaredTags.tags = [{ name := "declared", description := none }] ∧
    exApiOpBare.tags = extractTags exApiOpBare.endpoints :=
  ⟨(normalizeSpec_tags_declared_verbatim exDocDeclaredTags exApiDeclaredTags
      rfl).1 _ rfl,
   (normalizeSpec_tags_declared_verbatim exDocOpBare exApiOpBare rfl).2 rfl⟩

/-- C4, counterexample: an operation declaring an explicitly empty `tags`
list produces an endpoint whose tags list is empty, not `["default"]` (an
empty array is truthy in JavaScript, so `operation.tags || ['default']` keeps
it), refuting both the `["default"]` fallback for that case and the
non-emptiness invariant. -/
theorem normalizeSpec_empty_tag_list_kept :
    (normalizeSpec exDocOpEmptyTags).toOption.map
        (fun a => a.endpoints.map Endpoint.tags) = some [[]] ∧
    ([] : List String) ≠ ["default"] :=
  ⟨rfl, by simp⟩

/-- C4, amended: every produced Endpoint's tags list equals its source
operation's declared tags list when the `tags` field is present (an empty
list is kept empty) and `["default"]` when the field is absent; the list is
therefore non-empty provided the source never declares an empty tags list. -/
theorem normalizeSpec_endpoint_tags_from_operation (spec : OpenAPISpec)
    (a : ApiSpec) (h : normalizeSpec spec = .ok a)
    (e : Endpoint) (he : e ∈ a.endpoints) :
    ∃ p item op, (p, item) ∈ spec.paths.getD [] ∧
      item.getOp e.method = some op ∧
      e.tags = op.tags.getD ["default"] := by
  rw [(normalizeSpec_ok_shape spec a h).1] at he
  obtain ⟨pr, hpr, hin⟩ := List.mem_flatMap.mp he
  obtain ⟨m, op, hop, rfl⟩ := mem_endpointsOfPath hin
  exact ⟨pr.1, pr.2, op, by simpa using hpr, hop, rfl⟩

/-- C4, witness: the endpoint produced for an operation with no `tags` field
carries `["default"]` (its operation's `tags.getD ["default"]`). -/
theorem normalizeSpec_endpoint_tags_from_operation_witness :
    ∃ p item op, (p, item) ∈ exDocOpBare.paths.getD [] ∧
      item.getOp (mkEndpoint "/pets" .get [] exOpBare).method = some op ∧
      (mkEndpoint "/pets" .get [] exOpBare).tags = op.tags.getD ["default"] :=
  normalizeSpec_endpoint_tags_from_operation exDocOpBare exApiOpBare rfl
    (mkEndpoint "/pets" .get [] exOpBare) (List.mem_singleton.mpr rfl)

/-- C5, counterexample: a document with an `openapi` root key but no `info`
block does not normalize to an ApiSpec — reading `spec.info.title` raises a
TypeError, a third abort condition beyond ParseError and ValidationError. -/
theorem normalizeSpec_missing_info_raises :
    exDocNoInfo.openapi = some "3.0.0" ∧
    normalizeSpec exDocNoInfo = .error NormError.typeError :=
  ⟨rfl, rfl⟩

/-- C5, amended: after the parse and dialect-gate phases have succeeded,
normalization completes and returns an ApiSpec — defaulting every absent
field — for every parsed document that also carries an `info` block; a
document without one aborts with a TypeError instead. -/
theorem normalizeSpec_total_when_info_present (spec : OpenAPISpec)
    (hgate : (truthyStr spec.openapi || truthyStr spec.swagger) = true)
    (hinfo : spec.info.isSome = true) :
    ∃ a, normalizeSpec spec = .ok a := by
  rcases Option.isSome_iff_exists.mp hinfo with ⟨info, h⟩
  unfold normalizeSpec
  rw [hgate, h]
  exact ⟨_, rfl⟩

/-- C5, witness: a minimal document with `openapi` and `info` normalizes. -/
theorem normalizeSpec_total_when_info_present_witness :
    ∃ a, normalizeSpec exDocOk = .ok a :=
  normalizeSpec_total_when_info_present exDocOk rfl rfl

/-- C6: a parsed document with neither an `openapi` nor a `swagger` root key
fails with the ValidationError about a missing openapi or swagger version;
when at least one of the two keys is present with a truthy value, that error
is never raised. -/
theorem normalizeSpec_dialect_gate (spec : OpenAPISpec) :
    (spec.openapi = none ∧ spec.swagger = none →
      normalizeSpec spec = .error NormError.validationError) ∧
    ((truthyStr spec.openapi || truthyStr spec.swagger) = true →
      normalizeSpec spec ≠ .error NormError.validationError) := by
  constructor
  · rintro ⟨h1, h2⟩
    simp [normalizeSpec, h1, h2, truthyStr]
  · intro hgate
    unfold normalizeSpec
    rw [hgate]
    cases h : spec.info <;> simp [h]

/-- C6, witness: a keyless document raises the ValidationError and a keyed
one does not. -/
theorem normalizeSpec_dialect_gate_witness :
    normalizeSpec exDocNoDialect = .error NormError.validationError ∧
    normalizeSpec exDocOk ≠ .error NormError.validationError :=
  ⟨(normalizeSpec_dialect_gate exDocNoDialect).1 ⟨rfl, rfl⟩,
   (normalizeSpec_dialect_gate exDocOk).2 rfl⟩

/-- C7: for a document whose path templates are distinct (JavaScript object
keys always are), the produced model has exactly one Endpoint per
path/method pair bearing an operation — methods drawn from the fixed
enumeration, so any other key under a path entry yields none — and all
produced identifiers `"<method>-<path>"` are distinct. -/
theorem normalizeSpec_endpoint_count_unique_ids (spec : OpenAPISpec)
    (a : ApiSpec) (h : normalizeSpec spec = .ok a)
    (hkeys : ((spec.paths.getD []).map Prod.fst).Nodup) :
    a.endpoints.length = countOperations (spec.paths.getD []) ∧
    (a.endpoints.map Endpoint.id).Nodup := by
  rw [(normalizeSpec_ok_shape spec a h).1]
  exact ⟨parseEndpoints_length _, parseEndpoints_ids_nodup _ hkeys⟩

/-- C7, witness: a two-path document bearing three operations yields three
endpoints with distinct identifiers. -/
theorem normalizeSpec_endpoint_count_unique_ids_witness :
    exApiThreeOps.endpoints.length =
        countOperations (exDocThreeOps.paths.getD []) ∧
    (exApiThreeOps.endpoints.map Endpoint.id).Nodup :=
  normalizeSpec_endpoint_count_unique_ids exDocThreeOps exApiThreeOps rfl
    (by decide)

/-- C8: normalization is deterministic — the pipeline is a pure function of
the input text (for any fixed pure serialization parsers), so running it
twice on the same text yields equal ApiSpec values. -/
theorem parseOpenApiSpec_deterministic
    (jsonParse yamlParse : String → Option OpenAPISpec) (text : String) :
    parseOpenApiSpec jsonParse yamlParse (.text text) =
      parseOpenApiSpec jsonParse yamlParse (.text text) := rfl

mutual
/-- The conversion preserves nesting depth exactly (stated mutually with the
corresponding facts for optional children, property records and composition
lists). -/
theorem parseSchemaRef_depth_some : ∀ s : OpenAPISchema,
    schemaRefDepth (parseSchemaRefSome s) = schemaDepth s
  | .mk ty fmt d props items req en ex ref nul o1 a1 al => by
    simp only [parseSchemaRefSome, schemaRefDepth, schemaDepth,
      parseSchemaRef_depth_optItems items, parseSchemaRef_depth_optProps props,
      parseSchemaRef_depth_optList o1, parseSchemaRef_depth_optList a1,
      parseSchemaRef_depth_optList al]

/-- Depth preservation for an optional child node. -/
theorem parseSchemaRef_depth_optItems : ∀ o : Option OpenAPISchema,
    schemaRefDepthOptItems (parseSchemaRefOptItems o) = schemaDepthOptItems o
  | none => rfl
  | some s => parseSchemaRef_depth_some s

/-- Depth preservation for an optional `properties` record. -/
theorem parseSchemaRef_depth_optProps : ∀ o : Option OpenAPIProps,
    schemaRefDepthOptProps (parseSchemaRefOptProps o) = schemaDepthOptProps o
  | none => rfl
  | some ps => parseSchemaRef_depth_props ps

/-- Depth preservation for a `properties` record. -/
theorem parseSchemaRef_depth_props : ∀ ps : OpenAPIProps,
    schemaRefDepthProps (parseSchemaRefProps ps) = schemaDepthProps ps
  | .nil => rfl
  | .cons k v rest => by
    simp only [parseSchemaRefProps, schemaRefDepthProps, schemaDepthProps,
      parseSchemaRef_depth_some v, parseSchemaRef_depth_props rest]

/-- Depth preservation for an optional composition list. -/
theorem parseSchemaRef_depth_optList : ∀ o : Option OpenAPISchemaList,
    schemaRefDepthOptList (parseSchemaRefOptList o) = schemaDepthOptList o
  | none => rfl
  | some l => parseSchemaRef_depth_list l

/-- Depth preservation for a composition list. -/
theorem parseSchemaRef_depth_list : ∀ l : OpenAPISchemaList,
    schemaRefDepthList (parseSchemaRefList l) = schemaDepthList l
  | .nil => rfl
  | .cons s rest => by
    simp only [parseSchemaRefList, schemaRefDepthList, schemaDepthList,
      parseSchemaRef_depth_some s, parseSchemaRef_depth_list rest]
end

/-- C9: the recursive SchemaRef conversion is total (it is accepted as a
terminating function over the finite input tree) and structurally bounded:
the produced tree's nesting depth never exceeds the input node's own nesting
depth, and the `$ref` string is carried over as data, never followed. -/
theorem parseSchemaRef_depth_bounded (s : OpenAPISchema) :
    schemaRefDepth (parseSchemaRefSome s) ≤ schemaDepth s ∧
    (parseSchemaRefSome s).ref = s.ref :=
  ⟨le_of_eq (parseSchemaRef_depth_some s), by cases s; rfl⟩

/-- C10: object input skips the serialization parse entirely — a ParseError
is impossible on that path — the dialect gate still applies, and the result
equals normalizing any text whose strict-JSON parse yields that same
object (in particular the object's strict-JSON serialization, since
`JSON.parse` inverts `JSON.stringify`). -/
theorem parseOpenApiSpec_object_input
    (jsonParse yamlParse : String → Option OpenAPISpec)
    (doc : OpenAPISpec) (text : String)
    (hser : jsonParse text = some doc) :
    parseOpenApiSpec jsonParse yamlParse (.obj doc) ≠
        .error NormError.parseError ∧
    ((truthyStr doc.openapi || truthyStr doc.swagger) = false →
      parseOpenApiSpec jsonParse yamlParse (.obj doc) =
        .error NormError.validationError) ∧
    parseOpenApiSpec jsonParse yamlParse (.obj doc) =
      parseOpenApiSpec jsonParse yamlParse (.text text) := by
  refine ⟨normalizeSpec_ne_parseError doc, ?_, ?_⟩
  · intro hgate
    simp only [parseOpenApiSpec]
    unfold normalizeSpec
    rw [hgate]
    rfl
  · simp only [parseOpenApiSpec, hser]

/-- C10, witness: a concrete dialect-less object input raises the
ValidationError (never a ParseError) and agrees with the text path on a
serialization of it. -/
theorem parseOpenApiSpec_object_input_witness :
    parseOpenApiSpec (fun s => if s = "doc" then some exDocNoDialect else none)
        (fun _ => none) (.obj exDocNoDialect) ≠ .error NormError.parseError ∧
    parseOpenApiSpec (fun s => if s = "doc" then some exDocNoDialect else none)
        (fun _ => none) (.obj exDocNoDialect) =
      .error NormError.validationError ∧
    parseOpenApiSpec (fun s => if s = "doc" then some exDocNoDialect else none)
        (fun _ => none) (.obj exDocNoDialect) =
      parseOpenApiSpec (fun s => if s = "doc" then some exDocNoDialect else none)
        (fun _ => none) (.text "doc") := by
  have h := parseOpenApiSpec_object_input
    (fun s => if s = "doc" then some exDocNoDialect else none)
    (fun _ => none) exDocNoDialect "doc" (by simp)
  exact ⟨h.1, h.2.1 rfl, h.2.2⟩
